import Mathlib

/-!
Shallow embedding of `validate.py` (fabaccess-users-toml-validator).

The script parses a TOML user database with `tomllib`, then iterates the
parsed records in document order, accumulating warning counters and
printing warning messages.  Here:

* `Toml` models the values `tomllib` can produce inside a document
  (TOML has no null; floats and datetimes are omitted — they behave like
  `Toml.int` for every check of the script, i.e. non-string, non-iterable,
  and no claim depends on them).
* Python `print` calls that emit warnings become elements appended to the
  `warnings : List Finding` field; every other `print` (headers, report
  lines) is presentation glue and is not modelled as data.
* Python exceptions that escape `main` (`TypeError` from iterating a
  non-iterable `roles`, `NameError` from reading the never-assigned local
  `passwd`, `AttributeError` from calling string methods on non-strings)
  become `Except.error` outcomes.
* Machine integers: the counters are Python ints that only ever grow by 1,
  so they are `Nat`.
-/

inductive Toml where
  | str (s : String)
  | int (n : Int)
  | bool (b : Bool)
  | arr (xs : List Toml)
  | table (kvs : List (String × Toml))

/-! Decidable equality for `Toml` (Python `==` / `in` on parsed values),
written by hand because `deriving` does not handle the nested inductive. -/

mutual
def Toml.beq : Toml → Toml → Bool
  | .str a, .str b => a == b
  | .int a, .int b => a == b
  | .bool a, .bool b => a == b
  | .arr xs, .arr ys => Toml.beqList xs ys
  | .table xs, .table ys => Toml.beqKV xs ys
  | _, _ => false

def Toml.beqList : List Toml → List Toml → Bool
  | [], [] => true
  | x :: xs, y :: ys => Toml.beq x y && Toml.beqList xs ys
  | _, _ => false

def Toml.beqKV : List (String × Toml) → List (String × Toml) → Bool
  | [], [] => true
  | x :: xs, y :: ys => (x.1 == y.1 && Toml.beq x.2 y.2) && Toml.beqKV xs ys
  | _, _ => false
end

mutual
theorem Toml.beq_refl : ∀ (a : Toml), Toml.beq a a = true
  | .str _ => by simp [Toml.beq]
  | .int _ => by simp [Toml.beq]
  | .bool _ => by simp [Toml.beq]
  | .arr xs => by simp [Toml.beq, Toml.beqList_refl xs]
  | .table kvs => by simp [Toml.beq, Toml.beqKV_refl kvs]

theorem Toml.beqList_refl : ∀ (xs : List Toml), Toml.beqList xs xs = true
  | [] => by simp [Toml.beqList]
  | x :: xs => by simp [Toml.beqList, Toml.beq_refl x, Toml.beqList_refl xs]

theorem Toml.beqKV_refl : ∀ (xs : List (String × Toml)), Toml.beqKV xs xs = true
  | [] => by simp [Toml.beqKV]
  | x :: xs => by simp [Toml.beqKV, Toml.beq_refl x.2, Toml.beqKV_refl xs]
end

mutual
theorem Toml.eq_of_beq : ∀ (a b : Toml), Toml.beq a b = true → a = b
  | .str a, .str b, h => by simp [Toml.beq] at h; rw [h]
  | .int a, .int b, h => by simp [Toml.beq] at h; rw [h]
  | .bool a, .bool b, h => by simp [Toml.beq] at h; rw [h]
  | .arr xs, .arr ys, h => by
      rw [Toml.eqList_of_beq xs ys (by simpa [Toml.beq] using h)]
  | .table xs, .table ys, h => by
      rw [Toml.eqKV_of_beq xs ys (by simpa [Toml.beq] using h)]
  | .str _, .int _, h => by simp [Toml.beq] at h
  | .str _, .bool _, h => by simp [Toml.beq] at h
  | .str _, .arr _, h => by simp [Toml.beq] at h
  | .str _, .table _, h => by simp [Toml.beq] at h
  | .int _, .str _, h => by simp [Toml.beq] at h
  | .int _, .bool _, h => by simp [Toml.beq] at h
  | .int _, .arr _, h => by simp [Toml.beq] at h
  | .int _, .table _, h => by simp [Toml.beq] at h
  | .bool _, .str _, h => by simp [Toml.beq] at h
  | .bool _, .int _, h => by simp [Toml.beq] at h
  | .bool _, .arr _, h => by simp [Toml.beq] at h
  | .bool _, .table _, h => by simp [Toml.beq] at h
  | .arr _, .str _, h => by simp [Toml.beq] at h
  | .arr _, .int _, h => by simp [Toml.beq] at h
  | .arr _, .bool _, h => by simp [Toml.beq] at h
  | .arr _, .table _, h => by simp [Toml.beq] at h
  | .table _, .str _, h => by simp [Toml.beq] at h
  | .table _, .int _, h => by simp [Toml.beq] at h
  | .table _, .bool _, h => by simp [Toml.beq] at h
  | .table _, .arr _, h => by simp [Toml.beq] at h

theorem Toml.eqList_of_beq : ∀ (xs ys : List Toml),
    Toml.beqList xs ys = true → xs = ys
  | [], [], _ => rfl
  | x :: xs, y :: ys, h => by
      simp only [Toml.beqList, Bool.and_eq_true] at h
      rw [Toml.eq_of_beq x y h.1, Toml.eqList_of_beq xs ys h.2]
  | [], _ :: _, h => by simp [Toml.beqList] at h
  | _ :: _, [], h => by simp [Toml.beqList] at h

theorem Toml.eqKV_of_beq : ∀ (xs ys : List (String × Toml)),
    Toml.beqKV xs ys = true → xs = ys
  | [], [], _ => rfl
  | x :: xs, y :: ys, h => by
      simp only [Toml.beqKV, Bool.and_eq_true, beq_iff_eq] at h
      have h1 : x = y := Prod.ext h.1.1 (Toml.eq_of_beq x.2 y.2 h.1.2)
      rw [h1, Toml.eqKV_of_beq xs ys h.2]
  | [], _ :: _, h => by simp [Toml.beqKV] at h
  | _ :: _, [], h => by simp [Toml.beqKV] at h
end

instance : DecidableEq Toml := fun a b =>
  decidable_of_iff (Toml.beq a b = true)
    ⟨Toml.eq_of_beq a b, fun h => h ▸ Toml.beq_refl a⟩

/-- Python exceptions that can escape `main` uncaught. -/
inductive PyError where
  | typeError
  | nameError
  | attributeError
deriving DecidableEq, Repr

/-- Result of Python `for x in v`: a list yields its elements, a string
yields its characters (as one-character strings), a dict yields its keys;
every other value raises `TypeError`. -/
def pyIter : Toml → Except PyError (List Toml)
  | .str s => .ok (s.toList.map (fun c => .str (String.singleton c)))
  | .arr xs => .ok xs
  | .table kvs => .ok (kvs.map (fun kv => .str kv.1))
  | _ => .error .typeError

/-- Python `type(v) == list`. -/
def isList : Toml → Bool
  | .arr _ => true
  | _ => false

/-- Python `type(v) == str`. -/
def isStr : Toml → Bool
  | .str _ => true
  | _ => false

/-- Python `v is None`.  `tomllib` can never produce `None` (TOML has no
null value), so on parsed data this test is always false; the definition
keeps the structure of the source line `if roles is None:` visible. -/
def pyIsNone : Toml → Bool := fun _ => false

/-- Strip `'{'` and `'}'` characters from both ends, modelling Python
`str.strip('{}')`. -/
def stripBraces (s : String) : String :=
  let isBrace : Char → Bool := fun c => c = '{' || c = '}'
  String.mk (((s.toList.dropWhile isBrace).reverse.dropWhile isBrace).reverse)

def isHexChar (c : Char) : Bool :=
  c.isDigit || ('a' ≤ c && c ≤ 'f') || ('A' ≤ c && c ≤ 'F')

/-- Left-to-right, non-overlapping replacement of every occurrence of
`pat` by `repl`, i.e. Python `str.replace` for a nonempty pattern.  The
fuel argument (instantiated with the string length, an upper bound on the
number of steps) keeps the recursion structural. -/
def replaceAllAux (pat repl : List Char) : Nat → List Char → List Char
  | 0, s => s
  | _ + 1, [] => []
  | fuel + 1, c :: rest =>
    if pat.isPrefixOf (c :: rest) && !pat.isEmpty then
      repl ++ replaceAllAux pat repl fuel (rest.drop (pat.length - 1))
    else c :: replaceAllAux pat repl fuel rest

/-- Python `s.replace(pat, repl)` for a nonempty `pat`. -/
def pyReplace (s pat repl : String) : String :=
  String.mk (replaceAllAux pat.toList repl.toList s.length s.toList)

/-- The normalization performed by CPython's `uuid.UUID(hex=val)`:
`val.replace('urn:', '').replace('uuid:', '').strip('{}').replace('-', '')`. -/
def uuidNormalize (val : String) : String :=
  pyReplace (stripBraces (pyReplace (pyReplace val "urn:" "") "uuid:" "")) "-" ""

/-- `is_valid_uuid` from `validate.py`: `uuid.UUID(val, version=4)` inside
`try/except ValueError`.  CPython's constructor normalizes the string as in
`uuidNormalize`, requires exactly 32 hexadecimal digits, and — because the
`version=4` argument *overwrites* the version and variant bits rather than
checking them — raises `ValueError` only when the normalized string is not
32 hex digits.  (`int(hex, 16)` also tolerates exotica such as an inner
underscore or a leading sign; the model requires plain hex digits, which
agrees with CPython on every string made of hex digits, hyphens, braces and
the urn prefix, and on every input used in the theorems below.) -/
def is_valid_uuid (val : String) : Bool :=
  let hex := uuidNormalize val
  hex.length == 32 && hex.toList.all isHexChar

/-- `is_valid_uuid` as called by `main`: calling it on a non-string raises
`AttributeError` (`val.replace` does not exist), which the `except
ValueError` clause does not catch. -/
def is_valid_uuid_py : Toml → Except PyError Bool
  | .str s => .ok (is_valid_uuid s)
  | _ => .error .attributeError

/-- One warning message printed by the validator, as a structured value.
Each constructor corresponds to one `print("Warning: ...")` site. -/
inductive Finding where
  | unknownField (user key : String)
  | rolesNotArray (user : String)
  | duplicateRole (user : String) (role : Toml)
  | passwordNotString (user : String)
  | passwordUnencrypted (user : String)
  | passwordDuplicate (user : String)
  | cardkeyNotString (user : String)
  | cardkeyInvalid (user : String)
  | cardkeyDuplicate (user : String)
deriving DecidableEq

/-- The mutable state of `main`'s validation loop: all counters, the
duplicate-tracking lists, the function-scoped local variable `passwd`
(`none` = never assigned, so reading it raises `NameError`), and the list
of warning messages printed so far. -/
structure VState where
  countUsers : Nat
  countUsersWithoutCardkeyOrPassword : Nat
  uniqueRoles : List Toml
  countUserWithoutRoles : Nat
  countUserWithDuplicateRoles : Nat
  countPassword : Nat
  countPasswordUnencrypted : Nat
  countPasswordEncrypted : Nat
  countPasswordDuplicates : Nat
  countCardkey : Nat
  countCardkeyInvalid : Nat
  countCardkeyDuplicates : Nat
  countUnknownKeys : Nat
  countWarnings : Nat
  passwds : List Toml
  cardkeys : List Toml
  lastPasswd : Option Toml
  warnings : List Finding
deriving DecidableEq

def initState : VState :=
  { countUsers := 0
    countUsersWithoutCardkeyOrPassword := 0
    uniqueRoles := []
    countUserWithoutRoles := 0
    countUserWithDuplicateRoles := 0
    countPassword := 0
    countPasswordUnencrypted := 0
    countPasswordEncrypted := 0
    countPasswordDuplicates := 0
    countCardkey := 0
    countCardkeyInvalid := 0
    countCardkeyDuplicates := 0
    countUnknownKeys := 0
    countWarnings := 0
    passwds := []
    cardkeys := []
    lastPasswd := none
    warnings := [] }

/-- `knownKeys = ['roles', 'passwd', 'cardkey']`. -/
def knownKeys : List String := ["roles", "passwd", "cardkey"]

/-- A parsed user record: `tomllib` returns a dict, modelled as an ordered
association list (Python dicts preserve insertion order; `tomllib` rejects
duplicate keys, so lookups take the first match). -/
def getField (fields : List (String × Toml)) (k : String) : Option Toml :=
  (fields.find? (fun kv => kv.1 == k)).map (fun kv => kv.2)

/-- `for key in data[user].keys(): if key not in knownKeys: warn`. -/
def checkUnknownKeys (user : String) (fields : List (String × Toml))
    (st : VState) : VState :=
  fields.foldl
    (fun st kv =>
      if kv.1 ∈ knownKeys then st
      else
        { st with
          warnings := st.warnings ++ [.unknownField user kv.1]
          countWarnings := st.countWarnings + 1
          countUnknownKeys := st.countUnknownKeys + 1 })
    st

/-- Body of `for role in roles`: per-user duplicate detection against
`userRoles`, then collection into the global `uniqueRoles`. -/
def rolesStep (user : String) (acc : VState × List Toml) (role : Toml) :
    VState × List Toml :=
  let p :=
    if role ∈ acc.2 then
      ({ acc.1 with
         warnings := acc.1.warnings ++ [.duplicateRole user role]
         countUserWithDuplicateRoles := acc.1.countUserWithDuplicateRoles + 1
         countWarnings := acc.1.countWarnings + 1 }, acc.2)
    else (acc.1, acc.2 ++ [role])
  if role ∈ p.1.uniqueRoles then p
  else ({ p.1 with uniqueRoles := p.1.uniqueRoles ++ [role] }, p.2)

/-- The `if "roles" in data[user]:` block of `main`. -/
def processRoles (user : String) (fields : List (String × Toml))
    (st : VState) : Except PyError VState :=
  match getField fields "roles" with
  | none => .ok { st with countUserWithoutRoles := st.countUserWithoutRoles + 1 }
  | some roles =>
    let st :=
      if isList roles = false then
        { st with
          warnings := st.warnings ++ [.rolesNotArray user]
          countWarnings := st.countWarnings + 1 }
      else st
    match pyIter roles with
    | .error e => .error e
    | .ok items =>
      let st := (items.foldl (rolesStep user) (st, ([] : List Toml))).1
      let st :=
        if pyIsNone roles then
          { st with countUserWithoutRoles := st.countUserWithoutRoles + 1 }
        else st
      .ok st

/-- The `if "passwd" in data[user]:` block of `main`.  Assigning the local
variable `passwd` is modelled by setting `lastPasswd`; the value persists
across records because Python locals are function-scoped. -/
def processPasswd (user : String) (fields : List (String × Toml))
    (st : VState) : VState :=
  match getField fields "passwd" with
  | none => st
  | some passwd =>
    let st := { st with
      lastPasswd := some passwd
      countPassword := st.countPassword + 1 }
    let st :=
      if isStr passwd = false then
        { st with
          warnings := st.warnings ++ [.passwordNotString user]
          countWarnings := st.countWarnings + 1 }
      else if (match passwd with
               | .str s => s.startsWith "$argon2"
               | _ => false) = false then
        { st with
          warnings := st.warnings ++ [.passwordUnencrypted user]
          countWarnings := st.countWarnings + 1
          countPasswordUnencrypted := st.countPasswordUnencrypted + 1 }
      else
        { st with countPasswordEncrypted := st.countPasswordEncrypted + 1 }
    let st :=
      if passwd ∈ st.passwds then
        { st with
          warnings := st.warnings ++ [.passwordDuplicate user]
          countPasswordDuplicates := st.countPasswordDuplicates + 1
          countWarnings := st.countWarnings + 1 }
      else st
    { st with passwds := st.passwds ++ [passwd] }

/-- The `if "cardkey" in data[user]:` block of `main`.  Faithful to the
source: the string-ness test on line 149 reads the *`passwd`* local
variable (`if type(passwd) != str:`), not the cardkey value.  Reading it
before any record ever assigned it raises `NameError`; when it holds a
string but the cardkey value is not a string, `is_valid_uuid(cardkey)`
raises `AttributeError`. -/
def processCardkey (user : String) (fields : List (String × Toml))
    (st : VState) : Except PyError VState :=
  match getField fields "cardkey" with
  | none => .ok st
  | some cardkey =>
    match st.lastPasswd with
    | none => .error .nameError
    | some passwd =>
      let typeChecked : Except PyError VState :=
        if isStr passwd = false then
          .ok { st with
            warnings := st.warnings ++ [.cardkeyNotString user]
            countWarnings := st.countWarnings + 1 }
        else
          match is_valid_uuid_py cardkey with
          | .error e => .error e
          | .ok ok =>
            if ok = false then
              .ok { st with
                warnings := st.warnings ++ [.cardkeyInvalid user]
                countCardkeyInvalid := st.countCardkeyInvalid + 1
                countWarnings := st.countWarnings + 1 }
            else .ok st
      match typeChecked with
      | .error e => .error e
      | .ok st =>
        let st :=
          if cardkey ∈ st.cardkeys then
            { st with
              warnings := st.warnings ++ [.cardkeyDuplicate user]
              countCardkeyDuplicates := st.countCardkeyDuplicates + 1
              countWarnings := st.countWarnings + 1 }
          else st
        let st := { st with cardkeys := st.cardkeys ++ [cardkey] }
        .ok { st with countCardkey := st.countCardkey + 1 }

/-- One iteration of `for user in data`.  `data[user].keys()` on a
non-dict value raises `AttributeError`. -/
def processUser (user : String) (value : Toml) (st : VState) :
    Except PyError VState :=
  match value with
  | .table fields =>
    let st := checkUnknownKeys user fields st
    match processRoles user fields st with
    | .error e => .error e
    | .ok st =>
      let st := processPasswd user fields st
      match processCardkey user fields st with
      | .error e => .error e
      | .ok st =>
        let st :=
          if (getField fields "passwd").isNone
              && (getField fields "cardkey").isNone then
            { st with countUsersWithoutCardkeyOrPassword :=
                st.countUsersWithoutCardkeyOrPassword + 1 }
          else st
        .ok { st with countUsers := st.countUsers + 1 }
  | _ => .error .attributeError

/-- A successfully parsed document: top-level keys in document order. -/
abbrev Database := List (String × Toml)

/-- The validation loop `for user in data:` of `main`, starting from the
zero-initialized counters. -/
def runValidation (db : Database) : Except PyError VState :=
  db.foldlM (fun st u => processUser u.1 u.2 st) initState

/-- How a run of `main` ends, from the parse step onward (path resolution
and the zero-byte-file check are CLI glue preceding the modelled part). -/
inductive Outcome where
  | fatalParseError
  | fatalNoUsers
  | crashed (e : PyError)
  | report (st : VState)
deriving DecidableEq

/-- `main` from `tomllib.load` onward: a parse failure exits via the
`except` branch; otherwise the loop runs, then `countUsers == 0` aborts,
and only otherwise are the statistics printed. -/
def runMain (parsed : Option Database) : Outcome :=
  match parsed with
  | none => .fatalParseError
  | some db =>
    match runValidation db with
    | .error e => .crashed e
    | .ok st => if st.countUsers = 0 then .fatalNoUsers else .report st

/-- Process exit status of an outcome: `sys.exit(1)` on the fatal aborts,
exit code 1 on an uncaught traceback, 0 on a completed pass. -/
def exitCode : Outcome → Nat
  | .report _ => 0
  | _ => 1

/-- Whether the statistics report block is reached. -/
def printsStatistics : Outcome → Bool
  | .report _ => true
  | _ => false

/-! ### Derived descriptions of the loop's behaviour -/

/-- The characters of a string, as the one-character strings Python
iteration yields. -/
def strChars (s : String) : List Toml :=
  s.toList.map (fun c => Toml.str (String.singleton c))

/-- The `passwd` value a record contributes to the `passwds` list (a
record that is not a table crashes the run before reaching the passwd
block). -/
def recordPasswd : Toml → Option Toml
  | .table kvs => getField kvs "passwd"
  | _ => none

/-- All `passwd` field values of a database, in document order. -/
def passwdValues (db : Database) : List Toml :=
  db.filterMap (fun u => recordPasswd u.2)

/-- The sequence of role items the validator iterates for one record: the
elements of a `roles` list, the characters of a `roles` string, the keys
of a `roles` table, nothing when `roles` is absent.  (A non-iterable
`roles` value crashes the run; lemmas about completed runs never reach
that default.) -/
def recordRoleItems : Toml → List Toml
  | .table kvs =>
    (match getField kvs "roles" with
     | some r => (match pyIter r with | .ok items => items | .error _ => [])
     | none => [])
  | _ => []

/-- Effect of the roles loop on the global `uniqueRoles` list: append each
item not yet present. -/
def collectUnique (g : List Toml) : List Toml → List Toml
  | [] => g
  | r :: rs => collectUnique (if r ∈ g then g else g ++ [r]) rs

/-- Number of per-user duplicate-role hits when walking `items` with the
per-user seen list starting at `ur`. -/
def countNewDups (ur : List Toml) : List Toml → Nat
  | [] => 0
  | r :: rs =>
    if r ∈ ur then 1 + countNewDups ur rs else countNewDups (ur ++ [r]) rs

/-- The duplicate-role findings emitted when walking `items` with the
per-user seen list starting at `ur`. -/
def dupFindings (user : String) (ur : List Toml) : List Toml → List Finding
  | [] => []
  | r :: rs =>
    if r ∈ ur then .duplicateRole user r :: dupFindings user ur rs
    else dupFindings user (ur ++ [r]) rs

/-! Category tests on findings, one per warning-triggering condition. -/

def Finding.isUnknownField : Finding → Bool
  | .unknownField _ _ => true
  | _ => false

def Finding.isRolesNotArray : Finding → Bool
  | .rolesNotArray _ => true
  | _ => false

def Finding.isDuplicateRole : Finding → Bool
  | .duplicateRole _ _ => true
  | _ => false

def Finding.isPasswordNotString : Finding → Bool
  | .passwordNotString _ => true
  | _ => false

def Finding.isPasswordUnencrypted : Finding → Bool
  | .passwordUnencrypted _ => true
  | _ => false

def Finding.isPasswordDuplicate : Finding → Bool
  | .passwordDuplicate _ => true
  | _ => false

def Finding.isCardkeyNotString : Finding → Bool
  | .cardkeyNotString _ => true
  | _ => false

def Finding.isCardkeyInvalid : Finding → Bool
  | .cardkeyInvalid _ => true
  | _ => false

def Finding.isCardkeyDuplicate : Finding → Bool
  | .cardkeyDuplicate _ => true
  | _ => false

/-! ### Lemmas about the roles loop -/

theorem dupFindings_length (u : String) :
    ∀ (items ur : List Toml),
      (dupFindings u ur items).length = countNewDups ur items := by
  intro items
  induction items with
  | nil => intro ur; simp [dupFindings, countNewDups]
  | cons r rs ih =>
    intro ur
    by_cases hd : r ∈ ur <;> simp [dupFindings, countNewDups, hd, ih, Nat.add_comm]

theorem rolesFold_spec (u : String) :
    ∀ (items : List Toml) (st : VState) (ur : List Toml),
      ((items.foldl (rolesStep u) (st, ur)).1.warnings
          = st.warnings ++ dupFindings u ur items)
      ∧ ((items.foldl (rolesStep u) (st, ur)).1.countUserWithDuplicateRoles
          = st.countUserWithDuplicateRoles + countNewDups ur items)
      ∧ ((items.foldl (rolesStep u) (st, ur)).1.countWarnings
          = st.countWarnings + countNewDups ur items)
      ∧ ((items.foldl (rolesStep u) (st, ur)).1.uniqueRoles
          = collectUnique st.uniqueRoles items)
      ∧ ((items.foldl (rolesStep u) (st, ur)).1.passwds = st.passwds)
      ∧ ((items.foldl (rolesStep u) (st, ur)).1.countPasswordDuplicates
          = st.countPasswordDuplicates)
      ∧ ((items.foldl (rolesStep u) (st, ur)).1.lastPasswd = st.lastPasswd) := by
  intro items
  induction items with
  | nil =>
    intro st ur
    simp [dupFindings, countNewDups, collectUnique]
  | cons r rs ih =>
    intro st ur
    by_cases hd : r ∈ ur <;>
      by_cases hu : r ∈ st.uniqueRoles <;>
        simp [List.foldl_cons, rolesStep, hd, hu, dupFindings, countNewDups,
          collectUnique, ih, Nat.add_assoc, Nat.add_comm 1]

/-! ### Counting lemmas for duplicate detection -/

theorem toFinset_append_singleton (l : List Toml) (p : Toml) :
    (l ++ [p]).toFinset = insert p l.toFinset := by
  rw [List.toFinset_append, List.toFinset_cons, List.toFinset_nil,
    Finset.union_comm, Finset.insert_union, Finset.empty_union]

theorem toFinset_card_append_le (a b : List Toml) :
    (a ++ b).toFinset.card ≤ a.toFinset.card + b.toFinset.card := by
  rw [List.toFinset_append]
  exact Finset.card_union_le _ _

theorem toFinset_card_append_left_le (a b : List Toml) :
    a.toFinset.card ≤ (a ++ b).toFinset.card :=
  Finset.card_le_card (by rw [List.toFinset_append]; exact Finset.subset_union_left)

theorem countNewDups_eq :
    ∀ (items ur : List Toml),
      countNewDups ur items
        = items.length - ((ur ++ items).toFinset.card - ur.toFinset.card) := by
  intro items
  induction items with
  | nil => intro ur; simp [countNewDups]
  | cons r rs ih =>
    intro ur
    by_cases hd : r ∈ ur
    · have e : (ur ++ r :: rs).toFinset = (ur ++ rs).toFinset := by
        rw [List.toFinset_append, List.toFinset_append, List.toFinset_cons,
          Finset.union_insert,
          Finset.insert_eq_self.mpr
            (Finset.mem_union_left _ (List.mem_toFinset.mpr hd))]
      have h1 : ur.toFinset.card ≤ (ur ++ rs).toFinset.card :=
        toFinset_card_append_left_le ur rs
      have h2 : (ur ++ rs).toFinset.card
          ≤ ur.toFinset.card + rs.toFinset.card :=
        toFinset_card_append_le ur rs
      have h3 : rs.toFinset.card ≤ rs.length := rs.toFinset_card_le
      simp only [countNewDups, if_pos hd, ih ur, e, List.length_cons]
      omega
    · have e : (ur ++ r :: rs).toFinset = ((ur ++ [r]) ++ rs).toFinset := by
        rw [List.append_assoc]
        rfl
      have e3 : (ur ++ [r]).toFinset.card = ur.toFinset.card + 1 := by
        rw [toFinset_append_singleton,
          Finset.card_insert_of_not_mem (by simpa using hd)]
      have h1 : (ur ++ [r]).toFinset.card ≤ ((ur ++ [r]) ++ rs).toFinset.card :=
        toFinset_card_append_left_le (ur ++ [r]) rs
      have h2 : ((ur ++ [r]) ++ rs).toFinset.card
          ≤ (ur ++ [r]).toFinset.card + rs.toFinset.card :=
        toFinset_card_append_le (ur ++ [r]) rs
      have h3 : rs.toFinset.card ≤ rs.length := rs.toFinset_card_le
      simp only [countNewDups, if_neg hd, ih (ur ++ [r]), e, e3, List.length_cons]
      omega

theorem sum_count_sub_one (l : List Toml) :
    ∑ w in l.toFinset, (l.count w - 1) = l.length - l.toFinset.card := by
  have h0 : ∑ w in l.toFinset, l.count w = l.length :=
    List.sum_toFinset_count_eq_length l
  have h1 : ∀ w ∈ l.toFinset, 1 ≤ l.count w := by
    intro w hw
    have hm := List.mem_toFinset.mp hw
    have := List.count_pos_iff.mpr hm
    omega
  have h2 : ∑ w in l.toFinset, ((l.count w - 1) + 1)
      = ∑ w in l.toFinset, l.count w :=
    Finset.sum_congr rfl (fun w hw => by have := h1 w hw; omega)
  have h3 : ∑ w in l.toFinset, ((l.count w - 1) + 1)
      = (∑ w in l.toFinset, (l.count w - 1)) + l.toFinset.card := by
    rw [Finset.sum_add_distrib, Finset.sum_const, smul_eq_mul, mul_one]
  have h4 : l.toFinset.card ≤ l.length := l.toFinset_card_le
  omega

theorem collectUnique_toFinset :
    ∀ (items g : List Toml),
      (collectUnique g items).toFinset = g.toFinset ∪ items.toFinset := by
  intro items
  induction items with
  | nil => intro g; simp [collectUnique]
  | cons r rs ih =>
    intro g
    by_cases h : r ∈ g
    · rw [collectUnique, if_pos h, ih g, List.toFinset_cons,
        Finset.union_insert,
        Finset.insert_eq_self.mpr
          (Finset.mem_union_left _ (List.mem_toFinset.mpr h))]
    · rw [collectUnique, if_neg h, ih (g ++ [r]), List.toFinset_cons,
        toFinset_append_singleton, Finset.insert_union, Finset.union_insert]

theorem collectUnique_nodup :
    ∀ (items g : List Toml), g.Nodup → (collectUnique g items).Nodup := by
  intro items
  induction items with
  | nil => intro g hg; simpa [collectUnique] using hg
  | cons r rs ih =>
    intro g hg
    by_cases h : r ∈ g
    · rw [collectUnique, if_pos h]
      exact ih g hg
    · rw [collectUnique, if_neg h]
      exact ih (g ++ [r]) (by
        rw [← List.concat_eq_append]
        exact List.Nodup.concat h hg)

theorem collectUnique_append :
    ∀ (a b g : List Toml),
      collectUnique g (a ++ b) = collectUnique (collectUnique g a) b := by
  intro a
  induction a with
  | nil => intro b g; simp [collectUnique]
  | cons r rs ih =>
    intro b g
    rw [List.cons_append, collectUnique, collectUnique, ih]

theorem dup_card_append (l : List Toml) (p : Toml) :
    (l ++ [p]).length - (l ++ [p]).toFinset.card
      = (l.length - l.toFinset.card) + (if p ∈ l then 1 else 0) := by
  have h4 : l.toFinset.card ≤ l.length := l.toFinset_card_le
  by_cases h : p ∈ l
  · have e : (l ++ [p]).toFinset = l.toFinset := by
      rw [toFinset_append_singleton,
        Finset.insert_eq_self.mpr (List.mem_toFinset.mpr h)]
    rw [e, if_pos h]
    simp only [List.length_append, List.length_cons, List.length_nil]
    omega
  · have e : (l ++ [p]).toFinset.card = l.toFinset.card + 1 := by
      rw [toFinset_append_singleton,
        Finset.card_insert_of_not_mem (by simpa using h)]
    rw [e, if_neg h]
    simp only [List.length_append, List.length_cons, List.length_nil]
    omega

/-! ### Effect of each per-record block on the state -/

theorem checkUnknownKeys_spec (u : String) :
    ∀ (fs : List (String × Toml)) (st : VState),
      ∃ ws : List Finding,
        checkUnknownKeys u fs st
          = { st with
              warnings := st.warnings ++ ws
              countWarnings := st.countWarnings + ws.length
              countUnknownKeys := st.countUnknownKeys + ws.length } := by
  intro fs
  induction fs with
  | nil =>
    intro st
    exact ⟨[], by simp [checkUnknownKeys]⟩
  | cons kv rest ih =>
    intro st
    by_cases h : kv.1 ∈ knownKeys
    · have e : checkUnknownKeys u (kv :: rest) st = checkUnknownKeys u rest st := by
        simp [checkUnknownKeys, h]
      rw [e]
      exact ih st
    · have e : checkUnknownKeys u (kv :: rest) st
          = checkUnknownKeys u rest
              { st with
                warnings := st.warnings ++ [.unknownField u kv.1]
                countWarnings := st.countWarnings + 1
                countUnknownKeys := st.countUnknownKeys + 1 } := by
        simp [checkUnknownKeys, h]
      rcases ih { st with
        warnings := st.warnings ++ [.unknownField u kv.1]
        countWarnings := st.countWarnings + 1
        countUnknownKeys := st.countUnknownKeys + 1 } with ⟨ws, hws⟩
      refine ⟨Finding.unknownField u kv.1 :: ws, ?_⟩
      rw [e, hws]
      simp [Nat.add_assoc, Nat.add_comm 1]

theorem processPasswd_effect (u : String) (fs : List (String × Toml))
    (st : VState) :
    ((processPasswd u fs st).passwds
        = st.passwds ++ (getField fs "passwd").toList)
    ∧ ((processPasswd u fs st).countPasswordDuplicates
        = st.countPasswordDuplicates
          + (match getField fs "passwd" with
             | some p => if p ∈ st.passwds then 1 else 0
             | none => 0))
    ∧ ((processPasswd u fs st).uniqueRoles = st.uniqueRoles)
    ∧ ((processPasswd u fs st).countUserWithDuplicateRoles
        = st.countUserWithDuplicateRoles)
    ∧ ((processPasswd u fs st).countWarnings + st.warnings.length
        = (processPasswd u fs st).warnings.length + st.countWarnings) := by
  rcases hgf : getField fs "passwd" with _ | p
  · simp [processPasswd, hgf, Nat.add_comm]
  · simp only [processPasswd, hgf]
    split_ifs <;> simp [Option.toList] <;> omega

theorem processCardkey_effect (u : String) (fs : List (String × Toml))
    (st st' : VState) (h : processCardkey u fs st = .ok st') :
    (st'.passwds = st.passwds)
    ∧ (st'.countPasswordDuplicates = st.countPasswordDuplicates)
    ∧ (st'.uniqueRoles = st.uniqueRoles)
    ∧ (st'.countUserWithDuplicateRoles = st.countUserWithDuplicateRoles)
    ∧ (st'.countWarnings + st.warnings.length
        = st'.warnings.length + st.countWarnings) := by
  rcases hgf : getField fs "cardkey" with _ | ck
  · simp only [processCardkey, hgf, Except.ok.injEq] at h
    subst h
    exact ⟨rfl, rfl, rfl, rfl, Nat.add_comm _ _⟩
  · rcases hlp : st.lastPasswd with _ | pw
    · simp [processCardkey, hgf, hlp] at h
    · simp only [processCardkey, hgf, hlp] at h
      by_cases hstr : isStr pw = false
      · rw [if_pos hstr] at h
        simp only [Except.ok.injEq] at h
        subst h
        by_cases hm : ck ∈ st.cardkeys <;> simp [hm] <;> omega
      · rw [if_neg hstr] at h
        rcases hck : is_valid_uuid_py ck with e | ok
        · rw [hck] at h
          simp at h
        · rw [hck] at h
          simp only [Except.ok.injEq] at h
          by_cases hok : ok = false
          · rw [if_pos hok] at h
            simp only [Except.ok.injEq] at h
            subst h
            by_cases hm : ck ∈ st.cardkeys <;> simp [hm] <;> omega
          · rw [if_neg hok] at h
            simp only [Except.ok.injEq] at h
            subst h
            by_cases hm : ck ∈ st.cardkeys <;> simp [hm] <;> omega

theorem processRoles_effect (u : String) (fs : List (String × Toml))
    (st st' : VState) (h : processRoles u fs st = .ok st') :
    (st'.passwds = st.passwds)
    ∧ (st'.countPasswordDuplicates = st.countPasswordDuplicates)
    ∧ (st'.lastPasswd = st.lastPasswd)
    ∧ (st'.uniqueRoles
        = collectUnique st.uniqueRoles (recordRoleItems (Toml.table fs)))
    ∧ (st'.countWarnings + st.warnings.length
        = st'.warnings.length + st.countWarnings) := by
  rcases hgf : getField fs "roles" with _ | r
  · simp only [processRoles, hgf, Except.ok.injEq] at h
    subst h
    refine ⟨rfl, rfl, rfl, ?_, Nat.add_comm _ _⟩
    simp [recordRoleItems, hgf, collectUnique]
  · simp only [processRoles, hgf] at h
    rcases hit : pyIter r with e | items
    · rw [hit] at h
      simp at h
    · rw [hit] at h
      simp only [pyIsNone, Bool.false_eq_true, if_false, Except.ok.injEq] at h
      subst h
      have hri : recordRoleItems (Toml.table fs) = items := by
        simp [recordRoleItems, hgf, hit]
      rw [hri]
      by_cases hl : isList r = false
      · rw [if_pos hl]
        obtain ⟨hw, hdup, hcw, hur, hp, hpd, hlp2⟩ :=
          rolesFold_spec u items
            { st with
              warnings := st.warnings ++ [.rolesNotArray u]
              countWarnings := st.countWarnings + 1 } []
        refine ⟨by simpa using hp, by simpa using hpd, by simpa using hlp2,
          by simpa using hur, ?_⟩
        rw [hcw, hw]
        simp [dupFindings_length]
        omega
      · rw [if_neg hl]
        obtain ⟨hw, hdup, hcw, hur, hp, hpd, hlp2⟩ :=
          rolesFold_spec u items st []
        refine ⟨hp, hpd, hlp2, hur, ?_⟩
        rw [hcw, hw]
        simp [dupFindings_length]
        omega

theorem processUser_effect (u : String) (v : Toml) (st st' : VState)
    (h : processUser u v st = .ok st') :
    (st'.passwds = st.passwds ++ (recordPasswd v).toList)
    ∧ (st'.countPasswordDuplicates = st.countPasswordDuplicates
        + (match recordPasswd v with
           | some p => if p ∈ st.passwds then 1 else 0
           | none => 0))
    ∧ (st'.uniqueRoles = collectUnique st.uniqueRoles (recordRoleItems v))
    ∧ (st'.countWarnings + st.warnings.length
        = st'.warnings.length + st.countWarnings) := by
  cases v with
  | str s => simp [processUser] at h
  | int n => simp [processUser] at h
  | bool b => simp [processUser] at h
  | arr xs => simp [processUser] at h
  | table fs =>
    simp only [processUser] at h
    obtain ⟨ws, hcu⟩ := checkUnknownKeys_spec u fs st
    rcases hr : processRoles u fs (checkUnknownKeys u fs st) with e | st2
    · rw [hr] at h
      simp at h
    · rw [hr] at h
      simp only [Except.ok.injEq] at h
      rcases hc : processCardkey u fs (processPasswd u fs st2) with e | st3
      · rw [hc] at h
        simp at h
      · rw [hc] at h
        simp only [Except.ok.injEq] at h
        subst h
        obtain ⟨hr1, hr2, hr3, hr4, hr5⟩ :=
          processRoles_effect u fs (checkUnknownKeys u fs st) st2 hr
        obtain ⟨hp1, hp2, hp3, hp4, hp5⟩ := processPasswd_effect u fs st2
        obtain ⟨hc1, hc2, hc3, hc4, hc5⟩ :=
          processCardkey_effect u fs (processPasswd u fs st2) st3 hc
        rw [hcu] at hr1 hr2 hr4 hr5
        simp only [List.length_append] at hr1 hr2 hr4 hr5
        have hl1 : (checkUnknownKeys u fs st).warnings.length
            = st.warnings.length + ws.length := by
          rw [hcu]
          simp
        have hl2 : (checkUnknownKeys u fs st).countWarnings
            = st.countWarnings + ws.length := by
          rw [hcu]
        constructor
        · -- passwds
          by_cases hcred : (getField fs "passwd").isNone
              && (getField fs "cardkey").isNone
          · rw [if_pos hcred]
            simp only [recordPasswd]
            rw [hc1, hp1, hr1]
          · rw [if_neg hcred]
            simp only [recordPasswd]
            rw [hc1, hp1, hr1]
        constructor
        · -- countPasswordDuplicates
          by_cases hcred : (getField fs "passwd").isNone
              && (getField fs "cardkey").isNone
          · rw [if_pos hcred]
            simp only [recordPasswd]
            rw [hc2, hp2, hr2, hr1]
          · rw [if_neg hcred]
            simp only [recordPasswd]
            rw [hc2, hp2, hr2, hr1]
        constructor
        · -- uniqueRoles
          by_cases hcred : (getField fs "passwd").isNone
              && (getField fs "cardkey").isNone
          · rw [if_pos hcred]
            simp only [recordPasswd]
            rw [hc3, hp3, hr4]
          · rw [if_neg hcred]
            simp only [recordPasswd]
            rw [hc3, hp3, hr4]
        · -- warning pairing
          by_cases hcred : (getField fs "passwd").isNone
              && (getField fs "cardkey").isNone
          · rw [if_pos hcred]
            simp only
            omega
          · rw [if_neg hcred]
            simp only
            omega

/-! ### Accumulated effect of the whole validation loop -/

theorem runValidation_fold_effects :
    ∀ (db : Database) (s0 st : VState),
      db.foldlM (fun st u => processUser u.1 u.2 st) s0 = .ok st →
      (st.passwds = s0.passwds ++ passwdValues db)
      ∧ (st.uniqueRoles = collectUnique s0.uniqueRoles
          (db.flatMap (fun u => recordRoleItems u.2)))
      ∧ (st.countWarnings + s0.warnings.length
          = st.warnings.length + s0.countWarnings)
      ∧ (st.countPasswordDuplicates
            + (s0.passwds.length - s0.passwds.toFinset.card)
          = s0.countPasswordDuplicates
            + (st.passwds.length - st.passwds.toFinset.card)) := by
  intro db
  induction db with
  | nil =>
    intro s0 st h
    simp only [List.foldlM_nil, pure, Except.pure, Except.ok.injEq] at h
    subst h
    refine ⟨by simp [passwdValues], by simp [collectUnique], by omega, by omega⟩
  | cons a rest ih =>
    intro s0 st h
    rw [List.foldlM_cons] at h
    rcases hstep : processUser a.1 a.2 s0 with e | s1
    · rw [hstep] at h
      simp [Bind.bind, Except.bind] at h
    · rw [hstep] at h
      have h2 : rest.foldlM (fun st u => processUser u.1 u.2 st) s1 = .ok st := by
        simpa using h
      obtain ⟨ih1, ih2, ih3, ih4⟩ := ih s1 st h2
      obtain ⟨e1, e2, e3, e4⟩ := processUser_effect a.1 a.2 s0 s1 hstep
      have hpv : passwdValues (a :: rest)
          = (recordPasswd a.2).toList ++ passwdValues rest := by
        rcases hrp : recordPasswd a.2 with _ | p <;>
          simp [passwdValues, List.filterMap_cons, hrp]
      refine ⟨?_, ?_, ?_, ?_⟩
      · rw [ih1, e1, hpv, List.append_assoc]
      · rw [ih2, e3, List.flatMap_cons, collectUnique_append]
      · omega
      · -- duplicate-password counter tracks the seen-list score
        rcases hrp : recordPasswd a.2 with _ | p
        · rw [hrp] at e1 e2
          simp only [Option.toList, List.append_nil] at e1 e2
          rw [e1] at ih4
          omega
        · rw [hrp] at e1 e2
          simp only [Option.toList] at e1 e2
          have hd := dup_card_append s0.passwds p
          rw [← e1] at hd
          omega

theorem runValidation_spec (db : Database) (st : VState)
    (h : runValidation db = .ok st) :
    (st.passwds = passwdValues db)
    ∧ (st.uniqueRoles
        = collectUnique [] (db.flatMap (fun u => recordRoleItems u.2)))
    ∧ (st.countWarnings = st.warnings.length)
    ∧ (st.countPasswordDuplicates
        = st.passwds.length - st.passwds.toFinset.card) := by
  obtain ⟨h1, h2, h3, h4⟩ := runValidation_fold_effects db initState st h
  simp only [initState, List.nil_append, List.length_nil, List.toFinset_nil,
    Finset.card_empty, Nat.add_zero, Nat.sub_zero] at h1 h2 h3 h4
  exact ⟨h1, h2, by omega, by omega⟩

theorem length_eq_category_sum (l : List Finding) :
    l.length
      = l.countP Finding.isUnknownField + l.countP Finding.isRolesNotArray
      + l.countP Finding.isDuplicateRole + l.countP Finding.isPasswordNotString
      + l.countP Finding.isPasswordUnencrypted
      + l.countP Finding.isPasswordDuplicate
      + l.countP Finding.isCardkeyNotString + l.countP Finding.isCardkeyInvalid
      + l.countP Finding.isCardkeyDuplicate := by
  induction l with
  | nil => simp
  | cons f rest ih =>
    cases f <;>
      simp [List.countP_cons, Finding.isUnknownField, Finding.isRolesNotArray,
        Finding.isDuplicateRole, Finding.isPasswordNotString,
        Finding.isPasswordUnencrypted, Finding.isPasswordDuplicate,
        Finding.isCardkeyNotString, Finding.isCardkeyInvalid,
        Finding.isCardkeyDuplicate] <;>
      omega

theorem foldl_union_toFinset :
    ∀ (db : Database) (acc : Finset Toml),
      db.foldl (fun acc u => acc ∪ (recordRoleItems u.2).toFinset) acc
        = acc ∪ (db.flatMap (fun u => recordRoleItems u.2)).toFinset := by
  intro db
  induction db with
  | nil => intro acc; simp
  | cons a rest ih =>
    intro acc
    simp [List.foldl_cons, List.flatMap_cons, List.toFinset_append, ih,
      Finset.union_assoc]

/-! ### Claim theorems -/

def C1db : Database :=
  [("alice", Toml.table [("passwd", Toml.int 5),
      ("cardkey", Toml.str "c5e5e2fa-4b3a-4e2a-9f0a-1234567890ab")])]

/-- C1: the claim says the cardkey-not-a-string warning is emitted iff the
cardkey value itself is not a string.  The source line 149 tests
`type(passwd) != str` — the leftover `passwd` local — so on a record whose
`passwd` is the integer 5 and whose `cardkey` is a perfectly good UUID
string, the run completes and *does* emit `cardkeyNotString` (and skips
the UUID validation), although the cardkey value is a string. -/
theorem C1_cardkey_type_check_uses_stale_passwd :
    (runValidation C1db).map VState.warnings
      = .ok [Finding.passwordNotString "alice", Finding.cardkeyNotString "alice"]
    ∧ isStr (Toml.str "c5e5e2fa-4b3a-4e2a-9f0a-1234567890ab") = true :=
  ⟨rfl, rfl⟩

def C2db : Database := [("a", Toml.table [("roles", Toml.int 5)])]

/-- C2: the claim says no per-record defect ever aborts the run.  But a
record whose `roles` value is a non-iterable (here the integer 5) makes
`for role in roles` raise `TypeError` right after the non-list warning is
printed: the run aborts with a traceback and a nonzero exit status, and no
statistics are printed. -/
theorem C2_nonlist_roles_crashes_run :
    runMain (some C2db) = .crashed .typeError
    ∧ exitCode (runMain (some C2db)) ≠ 0
    ∧ printsStatistics (runMain (some C2db)) = false :=
  ⟨rfl, by decide, rfl⟩

def C3db : Database := [("a", Toml.table [("roles", Toml.arr [])])]

/-- C3: the claim says a record with `roles = []` counts toward "users
without roles".  The source only increments the counter when the `roles`
key is absent or when `roles is None` (which `tomllib` can never produce):
on a database whose single record has `roles = []` the run completes with
the users-without-roles counter still at 0. -/
theorem C3_empty_roles_list_not_counted :
    (runValidation C3db).map VState.countUserWithoutRoles = .ok 0
    ∧ printsStatistics (runMain (some C3db)) = true :=
  ⟨rfl, rfl⟩

/-- C4: the claim says a well-formed UUID string whose version nibble is
not 4 is rejected.  `uuid.UUID(val, version=4)` *overwrites* the version
bits instead of checking them, so the nil UUID — hyphenated encoding,
version nibble `'0'` at index 14 — is accepted. -/
theorem C4_nil_uuid_accepted :
    is_valid_uuid "00000000-0000-0000-0000-000000000000" = true
    ∧ "00000000-0000-0000-0000-000000000000".toList[14]? = some '0'
    ∧ ('0' : Char) ≠ '4' :=
  ⟨rfl, rfl, by decide⟩

def C5db : Database :=
  [("a", Toml.table [("passwd", Toml.str "x")]),
   ("b", Toml.table [("passwd", Toml.str "x")])]

def C5st : VState :=
  match runValidation C5db with
  | .ok s => s
  | .error _ => initState

/-- C5 counterexample: two records share the password value `"x"` (K = 2);
the run completes and the seen-list `passwds` then contains `"x"` twice —
`passwds.append(passwd)` runs on every occurrence — not "exactly once" as
the claim states. -/
theorem C5_counterexample_seen_list_not_once :
    runValidation C5db = .ok C5st
    ∧ (passwdValues C5db).count (Toml.str "x") = 2
    ∧ C5st.passwds.count (Toml.str "x") = 2
    ∧ ¬ (C5st.passwds.count (Toml.str "x") = 1) :=
  ⟨rfl, by decide, by decide, by decide⟩

/-- C5 (amended): for a completed run in which exactly K records (K ≥ 2)
carry the password value `v`, the duplicate-password counter equals
(K − 1) — one increment per re-encounter of `v` — plus the analogous
contributions of the other password values, and the seen-list `passwds`
contains `v` exactly K times (it is appended at every occurrence), not
once. -/
theorem C5_duplicate_password_warnings (db : Database) (st : VState)
    (v : Toml) (K : Nat) (hrun : runValidation db = .ok st)
    (hK : (passwdValues db).count v = K) (hK2 : 2 ≤ K) :
    (st.passwds.count v = K)
    ∧ (st.countPasswordDuplicates
        = (K - 1) + ∑ w in (passwdValues db).toFinset.erase v,
            ((passwdValues db).count w - 1)) := by
  obtain ⟨h1, -, -, h4⟩ := runValidation_spec db st hrun
  constructor
  · rw [h1, hK]
  · have hv : v ∈ (passwdValues db).toFinset := by
      rw [List.mem_toFinset]
      exact List.count_pos_iff.mp (by omega)
    have hsum := sum_count_sub_one (passwdValues db)
    have herase := Finset.add_sum_erase (passwdValues db).toFinset
      (fun w => (passwdValues db).count w - 1) hv
    rw [h4, h1, ← hsum, ← herase]
    simp only
    rw [hK]

/-- C5 witness: the amended statement instantiated on `C5db`. -/
theorem C5_duplicate_password_warnings_witness :
    (C5st.passwds.count (Toml.str "x") = 2)
    ∧ (C5st.countPasswordDuplicates
        = (2 - 1) + ∑ w in (passwdValues C5db).toFinset.erase (Toml.str "x"),
            ((passwdValues C5db).count w - 1)) :=
  C5_duplicate_password_warnings C5db C5st (Toml.str "x") 2 rfl rfl (by omega)

/-- C6: at the end of every completed pass, `countWarnings` equals the sum
over the nine warning categories of the number of findings of that
category — every warning print is paired with exactly one increment of the
total counter, and there are no other increments. -/
theorem C6_total_warning_count (db : Database) (st : VState)
    (hrun : runValidation db = .ok st) :
    st.countWarnings
      = st.warnings.countP Finding.isUnknownField
      + st.warnings.countP Finding.isRolesNotArray
      + st.warnings.countP Finding.isDuplicateRole
      + st.warnings.countP Finding.isPasswordNotString
      + st.warnings.countP Finding.isPasswordUnencrypted
      + st.warnings.countP Finding.isPasswordDuplicate
      + st.warnings.countP Finding.isCardkeyNotString
      + st.warnings.countP Finding.isCardkeyInvalid
      + st.warnings.countP Finding.isCardkeyDuplicate := by
  obtain ⟨-, -, h3, -⟩ := runValidation_spec db st hrun
  rw [h3, length_eq_category_sum]

def C6db : Database :=
  [("a", Toml.table [("foo", Toml.int 1), ("roles", Toml.str "aa"),
      ("passwd", Toml.str "pw")])]

def C6st : VState :=
  match runValidation C6db with
  | .ok s => s
  | .error _ => initState

/-- C6 witness: a database producing four warnings (unknown key, non-list
roles, duplicate role, unencrypted password). -/
theorem C6_total_warning_count_witness :
    C6st.countWarnings
      = C6st.warnings.countP Finding.isUnknownField
      + C6st.warnings.countP Finding.isRolesNotArray
      + C6st.warnings.countP Finding.isDuplicateRole
      + C6st.warnings.countP Finding.isPasswordNotString
      + C6st.warnings.countP Finding.isPasswordUnencrypted
      + C6st.warnings.countP Finding.isPasswordDuplicate
      + C6st.warnings.countP Finding.isCardkeyNotString
      + C6st.warnings.countP Finding.isCardkeyInvalid
      + C6st.warnings.countP Finding.isCardkeyDuplicate :=
  C6_total_warning_count C6db C6st rfl

/-- C7: at the end of every completed pass, the reported distinct-role
count (`len(uniqueRoles)`) equals the cardinality of the union, over all
records, of the set of role items that record's `roles` value yields. -/
theorem C7_distinct_role_count (db : Database) (st : VState)
    (hrun : runValidation db = .ok st) :
    st.uniqueRoles.length
      = (db.foldl (fun acc u => acc ∪ (recordRoleItems u.2).toFinset) ∅).card := by
  obtain ⟨-, h2, -, -⟩ := runValidation_spec db st hrun
  rw [foldl_union_toFinset db ∅, Finset.empty_union]
  have hnd : (collectUnique []
      (db.flatMap fun u => recordRoleItems u.2)).Nodup :=
    collectUnique_nodup _ [] List.nodup_nil
  have hface : (collectUnique []
      (db.flatMap fun u => recordRoleItems u.2)).toFinset
      = (db.flatMap fun u => recordRoleItems u.2).toFinset := by
    rw [collectUnique_toFinset]
    simp
  rw [h2, ← List.toFinset_card_of_nodup hnd, hface]

def C7db : Database :=
  [("a", Toml.table [("roles", Toml.arr [Toml.str "r1", Toml.str "r2"])]),
   ("b", Toml.table [("roles", Toml.arr [Toml.str "r2", Toml.str "r3"])])]

def C7st : VState :=
  match runValidation C7db with
  | .ok s => s
  | .error _ => initState

/-- C7 witness: two users with overlapping role lists; three distinct
roles in total. -/
theorem C7_distinct_role_count_witness :
    C7st.uniqueRoles.length
      = (C7db.foldl (fun acc u => acc ∪ (recordRoleItems u.2).toFinset) ∅).card :=
  C7_distinct_role_count C7db C7st rfl

/-- C8: a file that parses to a database with zero user records aborts
with the dedicated zero-users diagnostic and a nonzero exit status, before
any statistics are printed, and that abort is a different outcome from the
parse-failure abort. -/
theorem C8_zero_users_fatal (db : Database) (hlen : db.length = 0) :
    runMain (some db) = .fatalNoUsers
    ∧ exitCode (runMain (some db)) = 1
    ∧ printsStatistics (runMain (some db)) = false
    ∧ Outcome.fatalNoUsers ≠ Outcome.fatalParseError := by
  have hdb : db = [] := List.length_eq_zero.mp hlen
  subst hdb
  exact ⟨rfl, rfl, rfl, by intro h; cases h⟩

/-- C8 witness: the empty database. -/
theorem C8_zero_users_fatal_witness :
    runMain (some ([] : Database)) = .fatalNoUsers
    ∧ exitCode (runMain (some ([] : Database))) = 1
    ∧ printsStatistics (runMain (some ([] : Database))) = false
    ∧ Outcome.fatalNoUsers ≠ Outcome.fatalParseError :=
  C8_zero_users_fatal [] rfl

/-- C9: when a record's `roles` value is a string `s`, the roles block
emits the roles-not-an-array warning and then iterates the string
character by character: the warnings grow by exactly
`rolesNotArray` followed by one `duplicateRole` finding per repeated
character occurrence, the duplicate-role counter grows by the number of
repeated character occurrences, and the global distinct-role set gains
exactly the distinct characters of `s`. -/
theorem C9_string_roles_iterated (u : String) (fs : List (String × Toml))
    (st st' : VState) (s : String)
    (hf : getField fs "roles" = some (.str s))
    (hrun : processRoles u fs st = .ok st') :
    (st'.warnings = st.warnings
        ++ Finding.rolesNotArray u :: dupFindings u [] (strChars s))
    ∧ (st'.countUserWithDuplicateRoles = st.countUserWithDuplicateRoles
        + ((strChars s).length - (strChars s).toFinset.card))
    ∧ (st'.uniqueRoles.toFinset
        = st.uniqueRoles.toFinset ∪ (strChars s).toFinset) := by
  simp only [processRoles, hf] at hrun
  rw [show pyIter (Toml.str s) = Except.ok (strChars s) from rfl] at hrun
  rw [if_pos (show isList (Toml.str s) = false from rfl)] at hrun
  simp only [pyIsNone, Bool.false_eq_true, if_false, Except.ok.injEq] at hrun
  subst hrun
  obtain ⟨hw, hdup, hcw, hur, hp, hpd, hlp⟩ :=
    rolesFold_spec u (strChars s)
      { st with
        warnings := st.warnings ++ [.rolesNotArray u]
        countWarnings := st.countWarnings + 1 } []
  refine ⟨?_, ?_, ?_⟩
  · rw [hw]
    simp
  · rw [hdup]
    simp only
    rw [countNewDups_eq (strChars s) []]
    simp
  · rw [hur]
    simp only
    rw [collectUnique_toFinset]

def C9fs : List (String × Toml) := [("roles", Toml.str "aba")]

def C9st : VState :=
  match processRoles "u1" C9fs initState with
  | .ok s => s
  | .error _ => initState

/-- C9 witness: `roles = "aba"` — the repeated `'a'` yields one
duplicate-role finding and the distinct characters `'a'`, `'b'` enter the
global set. -/
theorem C9_string_roles_iterated_witness :
    (C9st.warnings = initState.warnings
        ++ Finding.rolesNotArray "u1" :: dupFindings "u1" [] (strChars "aba"))
    ∧ (C9st.countUserWithDuplicateRoles = initState.countUserWithDuplicateRoles
        + ((strChars "aba").length - (strChars "aba").toFinset.card))
    ∧ (C9st.uniqueRoles.toFinset
        = initState.uniqueRoles.toFinset ∪ (strChars "aba").toFinset) :=
  C9_string_roles_iterated "u1" C9fs initState C9st "aba" rfl rfl

/-- C10: when a record's `roles` list contains role `r` exactly n times
(n ≥ 2), the users-with-duplicate-roles counter grows by (n − 1) for the
occurrences of `r` — once per duplicate occurrence — plus the analogous
contributions of the other roles in the list: the counter tallies
duplicate occurrences, not users having a duplicate. -/
theorem C10_duplicate_role_counter_per_occurrence (u : String)
    (fs : List (String × Toml)) (st st' : VState) (l : List Toml)
    (r : Toml) (n : Nat)
    (hf : getField fs "roles" = some (.arr l))
    (hrun : processRoles u fs st = .ok st')
    (hn : l.count r = n) (h2 : 2 ≤ n) :
    st'.countUserWithDuplicateRoles
      = st.countUserWithDuplicateRoles
        + ((n - 1) + ∑ w in l.toFinset.erase r, (l.count w - 1)) := by
  simp only [processRoles, hf] at hrun
  rw [show pyIter (Toml.arr l) = Except.ok l from rfl] at hrun
  rw [if_neg (show ¬ isList (Toml.arr l) = false by simp [isList])] at hrun
  simp only [pyIsNone, Bool.false_eq_true, if_false, Except.ok.injEq] at hrun
  subst hrun
  obtain ⟨hw, hdup, hcw, hur, hp, hpd, hlp⟩ := rolesFold_spec u l st []
  rw [hdup, countNewDups_eq l []]
  have hv : r ∈ l.toFinset := by
    rw [List.mem_toFinset]
    exact List.count_pos_iff.mp (by omega)
  have hsum := sum_count_sub_one l
  have herase := Finset.add_sum_erase l.toFinset (fun w => l.count w - 1) hv
  simp only [List.nil_append, List.toFinset_nil, Finset.card_empty, Nat.sub_zero]
  rw [← hsum, ← herase]
  simp only
  rw [hn]

def C10fs : List (String × Toml) :=
  [("roles", Toml.arr [Toml.str "a", Toml.str "a", Toml.str "b"])]

def C10st : VState :=
  match processRoles "u2" C10fs initState with
  | .ok s => s
  | .error _ => initState

/-- C10 witness: `roles = ["a", "a", "b"]` — role "a" occurs twice, the
counter grows by 1. -/
theorem C10_duplicate_role_counter_per_occurrence_witness :
    C10st.countUserWithDuplicateRoles
      = initState.countUserWithDuplicateRoles
        + ((2 - 1)
          + ∑ w in ([Toml.str "a", Toml.str "a", Toml.str "b"]
              : List Toml).toFinset.erase (Toml.str "a"),
            (([Toml.str "a", Toml.str "a", Toml.str "b"]
              : List Toml).count w - 1)) :=
  C10_duplicate_role_counter_per_occurrence "u2" C10fs initState C10st
    [Toml.str "a", Toml.str "a", Toml.str "b"] (Toml.str "a") 2 rfl rfl
    (by decide) (by omega)
